import Mathlib

/-!
Verification development for the `adsbserver` repository.

The repository is a Python SBS-1 ("BaseStation") ingestion client.  The parts
embedded here are the three pure cores:

* the frame decoder: the `while '\n' in buffer:` loop of `ADSBClient.run`
  (src/adsb_client.py, lines 183-187) and of
  `PersistentADSBClient.run_persistent` (src/persistent_client.py,
  lines 102-107);
* the record parser `ADSBClient.parse_sbs_message`
  (src/adsb_client.py, lines 95-150);
* the per-receive-event behaviour of the two connection loops
  (src/adsb_client.py lines 176-203, src/persistent_client.py lines 93-124).

Python strings are embedded as `List Char`; Python string methods used by the
source (`strip`, `rstrip('\r')`, `split(',')`, `split('\n', 1)`, `int(...)`,
`float(...)`) are given explicit executable models below.
-/

namespace Adsb

/-- A Python string, modelled as its list of characters. -/
abbrev PyStr := List Char

/-- The characters removed by Python `str.strip()` with no argument
(ASCII whitespace; Python additionally strips some rare Unicode whitespace
characters, which no claim exercises). -/
def isPySpace (c : Char) : Bool :=
  c == ' ' || c == '\t' || c == '\n' || c == '\r' || c == '\x0b' || c == '\x0c'

/-- Python `s.strip()`: remove leading and trailing whitespace. -/
def pyStrip (s : PyStr) : PyStr :=
  ((s.dropWhile isPySpace).reverse.dropWhile isPySpace).reverse

/-- Python `line.rstrip('\r')` (src/adsb_client.py line 187,
src/persistent_client.py line 107): remove ALL trailing `'\r'` characters. -/
def rstripCR (s : PyStr) : PyStr :=
  (s.reverse.dropWhile (fun c => c == '\r')).reverse

/-- Python `s.split(sep)` for a one-character separator: always returns a
non-empty list of parts; `"".split(sep) == [""]`. -/
def pySplit (sep : Char) : PyStr → List PyStr
  | [] => [[]]
  | c :: rest =>
    if c = sep then [] :: pySplit sep rest
    else
      match pySplit sep rest with
      | [] => [[c]]
      | f :: fs => (c :: f) :: fs

/-- Python `s.split(sep, 1)` when `sep` occurs in `s`: the part before the
first occurrence of `sep` and the part after it; `none` when `sep ∉ s`
(in the source this case is excluded by the `while '\n' in buffer:` guard). -/
def splitFirst (sep : Char) : PyStr → Option (PyStr × PyStr)
  | [] => none
  | c :: rest =>
    if c = sep then some ([], rest)
    else
      match splitFirst sep rest with
      | none => none
      | some (l, r) => some (c :: l, r)

/-- Joins parts with a separator; the left inverse of `pySplit`. -/
def joinSep (sep : Char) : List PyStr → PyStr
  | [] => []
  | [p] => p
  | p :: q :: ps => p ++ sep :: joinSep sep (q :: ps)

/-- All parts of a split except the last one. -/
def initParts : List PyStr → List PyStr
  | [] => []
  | [_] => []
  | p :: q :: ps => p :: initParts (q :: ps)

/-- The last part of a split (`[]` for an empty list of parts, a case
`pySplit` never produces). -/
def lastPart : List PyStr → PyStr
  | [] => []
  | [p] => p
  | _ :: q :: ps => lastPart (q :: ps)

/-- The frame-decoder loop of `ADSBClient.run` (src/adsb_client.py 185-187)
and `PersistentADSBClient.run_persistent` (src/persistent_client.py 105-107):

```python
while '\n' in buffer:
    line, buffer = buffer.split('\n', 1)
    line = line.rstrip('\r')
```

Returns the ordered extracted (CR-stripped) lines and the final buffer.
The recursion is driven by fuel; each iteration consumes at least the
newline character, so `buf.length` iterations always suffice
(`extractLines` below instantiates the fuel accordingly). -/
def extractLinesFuel : Nat → PyStr → List PyStr × PyStr
  | 0, buf => ([], buf)
  | n + 1, buf =>
    match splitFirst '\n' buf with
    | none => ([], buf)
    | some (line, rest) =>
      let p := extractLinesFuel n rest
      (rstripCR line :: p.1, p.2)

/-- The frame-decoder loop with sufficient fuel: given a buffer, extract
every complete newline-terminated line (with trailing `'\r'`s removed) and
return the remaining partial line. -/
def extractLines (buf : PyStr) : List PyStr × PyStr :=
  extractLinesFuel buf.length buf

/-- One receive step of the frame decoder: `buffer += data` followed by the
line-extraction loop (src/adsb_client.py 183-187). -/
def decodeStep (buffer chunk : PyStr) : List PyStr × PyStr :=
  extractLines (buffer ++ chunk)

/-- Feeding a sequence of chunks through the frame decoder one at a time,
starting from an empty buffer, accumulating all extracted lines. -/
def decodeChunks (chunks : List PyStr) : List PyStr × PyStr :=
  chunks.foldl
    (fun acc chunk =>
      (acc.1 ++ (decodeStep acc.2 chunk).1, (decodeStep acc.2 chunk).2))
    ([], [])

/-- Value of a non-empty decimal digit string. -/
def decDigitsVal (l : List Char) : Nat :=
  l.foldl (fun a c => 10 * a + (c.toNat - 48)) 0

/-- `true` iff `l` is a non-empty string of ASCII decimal digits. -/
def isDigits (l : List Char) : Bool :=
  !l.isEmpty && l.all Char.isDigit

/-- Python `int(value)` on a string: surrounding whitespace is tolerated, an
optional sign is followed by decimal digits; anything else raises
`ValueError`, modelled as `none`.  (Python additionally accepts underscore
digit grouping and non-ASCII decimal digits; no claim exercises those.) -/
def pyInt? (s : PyStr) : Option Int :=
  match pyStrip s with
  | '+' :: rest => if isDigits rest then some (decDigitsVal rest) else none
  | '-' :: rest => if isDigits rest then some (-(decDigitsVal rest : Int)) else none
  | t => if isDigits t then some (decDigitsVal t) else none

/-- Exponent part of a Python float literal: optional sign then digits. -/
def pyExpVal? (s : PyStr) : Option Int :=
  match s with
  | '+' :: rest => if isDigits rest then some (decDigitsVal rest) else none
  | '-' :: rest => if isDigits rest then some (-(decDigitsVal rest : Int)) else none
  | t => if isDigits t then some (decDigitsVal t) else none

/-- Mantissa of a Python float literal: `digits`, `digits.`, `.digits` or
`digits.digits`, valued as a rational. -/
def pyMantissa? (s : PyStr) : Option Rat :=
  match s.dropWhile Char.isDigit with
  | [] =>
    if (s.takeWhile Char.isDigit).isEmpty then none
    else some ((decDigitsVal (s.takeWhile Char.isDigit) : Rat))
  | '.' :: frac =>
    if frac.all Char.isDigit && !((s.takeWhile Char.isDigit).isEmpty && frac.isEmpty) then
      some ((decDigitsVal (s.takeWhile Char.isDigit) : Rat)
        + (decDigitsVal frac : Rat) / ((10 : Rat) ^ frac.length))
    else none
  | _ => none

/-- Unsigned body of a Python float literal: mantissa with an optional
`e`/`E` exponent. -/
def pyFloatBody? (t : PyStr) : Option Rat :=
  match t.dropWhile (fun c => !(c == 'e' || c == 'E')) with
  | [] => pyMantissa? t
  | _ :: ex => do
    let mv ← pyMantissa? (t.takeWhile (fun c => !(c == 'e' || c == 'E')))
    let ev ← pyExpVal? ex
    pure (mv * (10 : Rat) ^ ev)

/-- Python `float(value)` on a string, with the exact value carried as a
rational: surrounding whitespace tolerated, optional sign, decimal mantissa
and optional exponent; a malformed literal raises `ValueError`, modelled as
`none`.  (`inf`/`nan` and underscore grouping are not modelled; no claim
exercises them.) -/
def pyFloat? (s : PyStr) : Option Rat :=
  match pyStrip s with
  | '+' :: rest => pyFloatBody? rest
  | '-' :: rest => (pyFloatBody? rest).map (fun q => -q)
  | t => pyFloatBody? t

/-- The parsed SBS record, mirroring the `ADSBMessage` dataclass of
src/adsb_client.py lines 11-34 (`float` fields carried as exact rationals). -/
structure ADSBMessage where
  message_type : PyStr
  transmission_type : Option Int
  session_id : Option Int
  aircraft_id : Option Int
  hex_ident : Option PyStr
  flight_id : Option Int
  date_generated : Option PyStr
  time_generated : Option PyStr
  date_logged : Option PyStr
  time_logged : Option PyStr
  callsign : Option PyStr
  altitude : Option Int
  ground_speed : Option Int
  track : Option Int
  latitude : Option Rat
  longitude : Option Rat
  vertical_rate : Option Int
  squawk : Option PyStr
  alert : Option Bool
  emergency : Option Bool
  spi : Option Bool
  is_on_ground : Option Bool
deriving DecidableEq

/-- `safe_int` of src/adsb_client.py lines 105-109:
`int(value) if value.strip() else None`, with `ValueError` caught and turned
into `None` (the catch is folded into `pyInt?` returning `none`). -/
def safe_int (value : PyStr) : Option Int :=
  if pyStrip value ≠ [] then pyInt? value else none

/-- `safe_float` of src/adsb_client.py lines 111-115. -/
def safe_float (value : PyStr) : Option Rat :=
  if pyStrip value ≠ [] then pyFloat? value else none

/-- `safe_bool` of src/adsb_client.py lines 117-122:
`value.strip() == "1"` gives `True`, `value.strip() == "0"` gives `False`,
anything else gives `None`. -/
def safe_bool (value : PyStr) : Option Bool :=
  if pyStrip value = "1".data then some true
  else if pyStrip value = "0".data then some false
  else none

/-- The Python idiom `fields[i] if fields[i].strip() else None`
(src/adsb_client.py lines 129, 131-134, 142): the raw, untrimmed value when
the field has non-whitespace content, otherwise `None`. -/
def strOpt (value : PyStr) : Option PyStr :=
  if pyStrip value ≠ [] then some value else none

/-- The Python idiom `fields[10].strip() if fields[10].strip() else None`
(src/adsb_client.py line 135, used only for the callsign): the trimmed value
when the field has non-whitespace content, otherwise `None`. -/
def strOptStripped (value : PyStr) : Option PyStr :=
  if pyStrip value ≠ [] then some (pyStrip value) else none

/-- The `ADSBMessage(...)` construction of src/adsb_client.py lines 124-147,
reading field positions 0-21. -/
def mkMessage (fields : List PyStr) : ADSBMessage where
  message_type := fields.getD 0 []
  transmission_type := safe_int (fields.getD 1 [])
  session_id := safe_int (fields.getD 2 [])
  aircraft_id := safe_int (fields.getD 3 [])
  hex_ident := strOpt (fields.getD 4 [])
  flight_id := safe_int (fields.getD 5 [])
  date_generated := strOpt (fields.getD 6 [])
  time_generated := strOpt (fields.getD 7 [])
  date_logged := strOpt (fields.getD 8 [])
  time_logged := strOpt (fields.getD 9 [])
  callsign := strOptStripped (fields.getD 10 [])
  altitude := safe_int (fields.getD 11 [])
  ground_speed := safe_int (fields.getD 12 [])
  track := safe_int (fields.getD 13 [])
  latitude := safe_float (fields.getD 14 [])
  longitude := safe_float (fields.getD 15 [])
  vertical_rate := safe_int (fields.getD 16 [])
  squawk := strOpt (fields.getD 17 [])
  alert := safe_bool (fields.getD 18 [])
  emergency := safe_bool (fields.getD 19 [])
  spi := safe_bool (fields.getD 20 [])
  is_on_ground := safe_bool (fields.getD 21 [])

/-- `ADSBClient.parse_sbs_message` (src/adsb_client.py lines 95-150):
an all-whitespace line gives `None`; the stripped line is split on commas;
fewer than 22 fields or a first field other than `"MSG"` gives `None`;
otherwise the record is built.  The enclosing `try/except` cannot fire in
the accepted branch (all field accesses are within the checked length), so
the function is total. -/
def parse_sbs_message (line : PyStr) : Option ADSBMessage :=
  if pyStrip line = [] then none
  else if (pySplit ',' (pyStrip line)).length < 22
      ∨ (pySplit ',' (pyStrip line)).getD 0 [] ≠ "MSG".data then none
  else some (mkMessage (pySplit ',' (pyStrip line)))

/-- Field `i` of the comma-split of the stripped line, as the parser sees it. -/
def fieldAt (line : PyStr) (i : Nat) : PyStr :=
  (pySplit ',' (pyStrip line)).getD i []

/-- `true` iff the optional record field stored at split position `i`
(positions 1-21) is absent. -/
def fieldAbsentAt (m : ADSBMessage) : Nat → Bool
  | 1 => m.transmission_type.isNone
  | 2 => m.session_id.isNone
  | 3 => m.aircraft_id.isNone
  | 4 => m.hex_ident.isNone
  | 5 => m.flight_id.isNone
  | 6 => m.date_generated.isNone
  | 7 => m.time_generated.isNone
  | 8 => m.date_logged.isNone
  | 9 => m.time_logged.isNone
  | 10 => m.callsign.isNone
  | 11 => m.altitude.isNone
  | 12 => m.ground_speed.isNone
  | 13 => m.track.isNone
  | 14 => m.latitude.isNone
  | 15 => m.longitude.isNone
  | 16 => m.vertical_rate.isNone
  | 17 => m.squawk.isNone
  | 18 => m.alert.isNone
  | 19 => m.emergency.isNone
  | 20 => m.spi.isNone
  | 21 => m.is_on_ground.isNone
  | _ => false

/-- The integer-typed record field stored at split position `i`. -/
def intFieldAt (m : ADSBMessage) : Nat → Option Int
  | 1 => m.transmission_type
  | 2 => m.session_id
  | 3 => m.aircraft_id
  | 5 => m.flight_id
  | 11 => m.altitude
  | 12 => m.ground_speed
  | 13 => m.track
  | 16 => m.vertical_rate
  | _ => none

/-- The tri-state-boolean record field stored at split position `i`. -/
def boolFieldAt (m : ADSBMessage) : Nat → Option Bool
  | 18 => m.alert
  | 19 => m.emergency
  | 20 => m.spi
  | 21 => m.is_on_ground
  | _ => none

/-- Result of one `socket.recv` call inside a connected receive loop:
either a decoded chunk (possibly empty — Python's `if not data:` test),
a `socket.timeout`, or another connection exception. -/
inductive RecvEvent where
  | recv (chunk : PyStr)
  | timeout
  | connError
deriving DecidableEq

/-- Whether the receive loop keeps the current connection after an event. -/
inductive ConnState where
  | connected
  | disconnected
deriving DecidableEq

/-- Loop-local state of `ADSBClient.run`: the line buffer and the messages
forwarded to the sink so far. -/
structure RunState where
  buffer : PyStr
  saved : List ADSBMessage
deriving DecidableEq

/-- One iteration of the receive loop of `ADSBClient.run`
(src/adsb_client.py lines 176-203): an empty read breaks out of the loop
(connection loss), data is fed through the frame decoder and parser with
blank lines skipped, `socket.timeout` is logged and the loop continues,
any other exception breaks out of the loop. -/
def adsbRunBody (st : RunState) (ev : RecvEvent) : RunState × ConnState :=
  match ev with
  | RecvEvent.recv chunk =>
    if chunk = [] then (st, ConnState.disconnected)
    else
      ({ buffer := (extractLines (st.buffer ++ chunk)).2,
         saved := st.saved ++ (extractLines (st.buffer ++ chunk)).1.filterMap
           (fun l => if pyStrip l = [] then none else parse_sbs_message l) },
       ConnState.connected)
  | RecvEvent.timeout => (st, ConnState.connected)
  | RecvEvent.connError => (st, ConnState.disconnected)

/-- Loop-local state of `PersistentADSBClient.run_persistent`: the line
buffer and the raw rows saved so far (`save_raw_message` stores the
stripped line). -/
structure PersistentState where
  buffer : PyStr
  saved : List PyStr
deriving DecidableEq

/-- One iteration of the inner receive loop of
`PersistentADSBClient.run_persistent` (src/persistent_client.py lines
93-124): an empty read breaks (connection closed by server), data is fed
through the frame decoder and non-blank lines are saved raw,
`socket.timeout` BREAKS out of the inner loop ("Socket timeout, will retry
connection...") and so does any other exception. -/
def persistentRunBody (st : PersistentState) (ev : RecvEvent) :
    PersistentState × ConnState :=
  match ev with
  | RecvEvent.recv chunk =>
    if chunk = [] then (st, ConnState.disconnected)
    else
      ({ buffer := (extractLines (st.buffer ++ chunk)).2,
         saved := st.saved ++
           ((extractLines (st.buffer ++ chunk)).1.filter
             (fun l => !(pyStrip l).isEmpty)).map pyStrip },
       ConnState.connected)
  | RecvEvent.timeout => (st, ConnState.disconnected)
  | RecvEvent.connError => (st, ConnState.disconnected)

/-- Concrete line for the C2 counterexample: a leading space, so the raw
line does not start with `MSG,`, yet the parser strips before splitting. -/
def c2line : PyStr := " MSG,,,,,,,,,,,,,,,,,,,,,".data

/-- Concrete 22-field `MSG` line with every optional field empty. -/
def c3line : PyStr := "MSG,,,,,,,,,,,,,,,,,,,,,".data

/-- The record parsed from `c3line`. -/
def c3msg : ADSBMessage := mkMessage (pySplit ',' (pyStrip c3line))

/-- Concrete 22-field `MSG` line whose altitude field (position 11) is the
non-numeric text `abc`. -/
def c4line : PyStr := "MSG,,,,,,,,,,,abc,,,,,,,,,,".data

/-- The record parsed from `c4line`. -/
def c4msg : ADSBMessage := mkMessage (pySplit ',' (pyStrip c4line))

/-- Concrete 22-field `MSG` line whose hex_ident field (position 4) is
`" A "`: non-empty with surrounding whitespace. -/
def c5line : PyStr := "MSG,,,, A ,,,,,,,,,,,,,,,,,".data

/-- The record parsed from `c5line`. -/
def c5msg : ADSBMessage := mkMessage (pySplit ',' (pyStrip c5line))

/-- Concrete 22-field `MSG` line with hex_ident `" B "` and callsign
`" C "`. -/
def c5wline : PyStr := "MSG,,,, B ,,,,,, C ,,,,,,,,,,,".data

/-- The record parsed from `c5wline`. -/
def c5wmsg : ADSBMessage := mkMessage (pySplit ',' (pyStrip c5wline))

/-- Concrete 22-field `MSG` line whose alert field (position 18) is `" 1"`:
not the literal `"1"`, but stripping to it. -/
def c6line : PyStr := "MSG,,,,,,,,,,,,,,,,,, 1,,,".data

/-- The record parsed from `c6line`. -/
def c6msg : ADSBMessage := mkMessage (pySplit ',' (pyStrip c6line))

/-- Concrete 22-field `MSG` line with alert `"1"`, emergency `"0"` and spi
`"x"`. -/
def c6wline : PyStr := "MSG,,,,,,,,,,,,,,,,,,1,0,x,".data

/-- The record parsed from `c6wline`. -/
def c6wmsg : ADSBMessage := mkMessage (pySplit ',' (pyStrip c6wline))

/-- Concrete line with 25 comma-separated fields (3 extra fields beyond the
22 the parser reads). -/
def c9line : PyStr := "MSG,,,,,,,,,,,,,,,,,,,,,,x,y,z".data

/-! ## Splitting infrastructure -/

/-- `pySplit` never returns an empty list of parts. -/
theorem pySplit_ne_nil (sep : Char) (s : PyStr) : pySplit sep s ≠ [] := by
  induction s with
  | nil => simp [pySplit]
  | cons c rest ih =>
    by_cases hc : c = sep
    · simp [pySplit, hc]
    · simp only [pySplit, if_neg hc]
      cases h : pySplit sep rest with
      | nil => simp
      | cons f fs => simp

/-- Joining the parts of a split with the separator recovers the string. -/
theorem joinSep_pySplit (sep : Char) (s : PyStr) :
    joinSep sep (pySplit sep s) = s := by
  induction s with
  | nil => rfl
  | cons c rest ih =>
    by_cases hc : c = sep
    · subst hc
      simp only [pySplit, if_pos rfl]
      cases h : pySplit c rest with
      | nil => exact absurd h (pySplit_ne_nil c rest)
      | cons f fs =>
        rw [h] at ih
        simp [joinSep, ih]
    · simp only [pySplit, if_neg hc]
      cases h : pySplit sep rest with
      | nil => exact absurd h (pySplit_ne_nil sep rest)
      | cons f fs =>
        rw [h] at ih
        cases fs with
        | nil => simp_all [joinSep]
        | cons g gs => simp_all [joinSep]

/-- No part produced by `pySplit` contains the separator. -/
theorem not_mem_of_mem_pySplit (sep : Char) (s : PyStr) :
    ∀ p ∈ pySplit sep s, sep ∉ p := by
  induction s with
  | nil =>
    intro p hp
    simp [pySplit] at hp
    simp [hp]
  | cons c rest ih =>
    intro p hp
    by_cases hc : c = sep
    · simp only [pySplit, if_pos hc] at hp
      rcases List.mem_cons.mp hp with h | h
      · simp [h]
      · exact ih p h
    · simp only [pySplit, if_neg hc] at hp
      cases h : pySplit sep rest with
      | nil => exact absurd h (pySplit_ne_nil sep rest)
      | cons f fs =>
        rw [h] at hp
        rcases List.mem_cons.mp hp with h1 | h1
        · subst h1
          have hf : sep ∉ f := ih f (h ▸ List.mem_cons_self f fs)
          simp [List.mem_cons, hf]
          exact fun he => hc he.symm
        · exact ih p (h ▸ List.mem_cons_of_mem f h1)

/-- Splitting a string without the separator yields a single part. -/
theorem pySplit_eq_single (sep : Char) (s : PyStr) (h : sep ∉ s) :
    pySplit sep s = [s] := by
  induction s with
  | nil => rfl
  | cons c rest ih =>
    have hc : c ≠ sep := fun he => h (he ▸ List.mem_cons_self c rest)
    have hrest : sep ∉ rest := fun hm => h (List.mem_cons_of_mem c hm)
    simp only [pySplit, if_neg hc, ih hrest]

/-- `initParts` distributes over an append ending in a cons. -/
theorem initParts_append_cons (xs : List PyStr) (y : PyStr) (ys : List PyStr) :
    initParts (xs ++ y :: ys) = xs ++ initParts (y :: ys) := by
  induction xs with
  | nil => rfl
  | cons x xs ih =>
    cases xs with
    | nil => rfl
    | cons x' xs' => simpa [initParts] using ih

/-- `lastPart` ignores a prefix before a cons. -/
theorem lastPart_append_cons (xs : List PyStr) (y : PyStr) (ys : List PyStr) :
    lastPart (xs ++ y :: ys) = lastPart (y :: ys) := by
  induction xs with
  | nil => rfl
  | cons x xs ih =>
    cases xs with
    | nil => rfl
    | cons x' xs' => simpa [lastPart] using ih

/-- The last part of a non-empty list of parts is one of the parts. -/
theorem lastPart_mem (ps : List PyStr) (h : ps ≠ []) : lastPart ps ∈ ps := by
  induction ps with
  | nil => exact absurd rfl h
  | cons p qs ih =>
    cases qs with
    | nil => simp [lastPart]
    | cons q rs =>
      have := ih (by simp)
      simp only [lastPart]
      exact List.mem_cons_of_mem p this

/-- Splitting an append: the parts of `a`, with the last part of `a` merged
with the first part of `b`. -/
theorem pySplit_append (sep : Char) (a b : PyStr) :
    pySplit sep (a ++ b) =
      initParts (pySplit sep a)
        ++ (lastPart (pySplit sep a) ++ (pySplit sep b).headD []) ::
          (pySplit sep b).tail := by
  induction a with
  | nil =>
    cases h : pySplit sep b with
    | nil => exact absurd h (pySplit_ne_nil sep b)
    | cons f fs => simp [initParts, lastPart, pySplit, h]
  | cons c a ih =>
    cases h : pySplit sep a with
    | nil => exact absurd h (pySplit_ne_nil sep a)
    | cons f fs =>
      cases hb : pySplit sep b with
      | nil => exact absurd hb (pySplit_ne_nil sep b)
      | cons g gs =>
        rw [h, hb] at ih
        by_cases hc : c = sep
        · subst hc
          simp only [List.cons_append, pySplit, if_pos rfl, h]
          simp [initParts, lastPart]
          simpa using ih
        · simp only [List.cons_append, pySplit, if_neg hc, h]
          cases fs with
          | nil =>
            simp only [initParts, lastPart, List.headD_cons, List.tail_cons,
              List.nil_append] at ih
            simp only [List.append_eq]
            rw [ih]
            simp [initParts, lastPart]
          | cons f' fs' =>
            simp only [initParts, lastPart, List.headD_cons, List.tail_cons,
              List.cons_append] at ih
            simp only [List.append_eq]
            rw [ih]
            simp [initParts, lastPart]

/-- Splitting a string of the shape `l ++ sep :: r` where `l` has no
separator: the first part is `l` and the rest is the split of `r`. -/
theorem pySplit_sandwich (sep : Char) (l r : PyStr) (hl : sep ∉ l) :
    pySplit sep (l ++ sep :: r) = l :: pySplit sep r := by
  have h1 : pySplit sep (sep :: r) = [] :: pySplit sep r := by
    simp [pySplit]
  rw [pySplit_append, pySplit_eq_single sep l hl, h1]
  simp [initParts, lastPart]

/-! ## The frame-decoder loop -/

/-- `splitFirst` fails exactly on strings without the separator
(the `'\n' in buffer` test of the source). -/
theorem splitFirst_eq_none_iff (sep : Char) (s : PyStr) :
    splitFirst sep s = none ↔ sep ∉ s := by
  induction s with
  | nil => simp [splitFirst]
  | cons c rest ih =>
    by_cases hc : c = sep
    · subst hc
      simp [splitFirst]
    · simp only [splitFirst, if_neg hc]
      cases h : splitFirst sep rest with
      | none =>
        rw [h] at ih
        simp only [true_iff] at ih
        simp [List.mem_cons, ih]
        exact fun he => hc he.symm
      | some p =>
        rw [h] at ih
        simp at ih
        simp [List.mem_cons, ih]

/-- A successful `splitFirst` decomposes the string around the first
separator occurrence. -/
theorem splitFirst_eq_some (sep : Char) (s l r : PyStr)
    (h : splitFirst sep s = some (l, r)) :
    s = l ++ sep :: r ∧ sep ∉ l := by
  induction s generalizing l r with
  | nil => simp [splitFirst] at h
  | cons c rest ih =>
    by_cases hc : c = sep
    · subst hc
      simp [splitFirst] at h
      obtain ⟨rfl, rfl⟩ := h
      simp
    · simp only [splitFirst, if_neg hc] at h
      cases hr : splitFirst sep rest with
      | none => rw [hr] at h; simp at h
      | some p =>
        obtain ⟨l', r'⟩ := p
        rw [hr] at h
        simp only [Option.some.injEq, Prod.mk.injEq] at h
        obtain ⟨h1, h2⟩ := h
        subst h2
        obtain ⟨hs, hl'⟩ := ih l' r' hr
        subst hs
        constructor
        · rw [← h1]; simp
        · rw [← h1]
          simp [List.mem_cons, hl']
          exact fun he => hc he.symm

/-- The fuel-driven loop, on sufficient fuel, computes the split-based
characterisation: all parts before the last newline, CR-stripped, plus the
trailing partial line. -/
theorem extractLinesFuel_eq (n : Nat) (buf : PyStr) (hn : buf.length ≤ n) :
    extractLinesFuel n buf =
      ((initParts (pySplit '\n' buf)).map rstripCR,
        lastPart (pySplit '\n' buf)) := by
  induction n generalizing buf with
  | zero =>
    have : buf = [] := List.length_eq_zero.mp (Nat.le_zero.mp hn)
    subst this
    simp [extractLinesFuel, pySplit, initParts, lastPart]
  | succ n ih =>
    cases h : splitFirst '\n' buf with
    | none =>
      have hno : '\n' ∉ buf := (splitFirst_eq_none_iff '\n' buf).mp h
      simp [extractLinesFuel, h, pySplit_eq_single '\n' buf hno,
        initParts, lastPart]
    | some p =>
      obtain ⟨line, rest⟩ := p
      obtain ⟨hs, hnl⟩ := splitFirst_eq_some '\n' buf line rest h
      have hlen : rest.length ≤ n := by
        subst hs
        simp only [List.length_append, List.length_cons] at hn
        omega
      have hsp : pySplit '\n' buf = line :: pySplit '\n' rest := by
        rw [hs]
        exact pySplit_sandwich '\n' line rest hnl
      cases hr : pySplit '\n' rest with
      | nil => exact absurd hr (pySplit_ne_nil '\n' rest)
      | cons f fs =>
        simp only [extractLinesFuel, h, ih rest hlen, hsp, hr,
          initParts, lastPart]
        simp

/-- The frame-decoder loop equals its split-based characterisation. -/
theorem extractLines_eq (buf : PyStr) :
    extractLines buf =
      ((initParts (pySplit '\n' buf)).map rstripCR,
        lastPart (pySplit '\n' buf)) :=
  extractLinesFuel_eq buf.length buf le_rfl

/-- The trailing partial line returned by the loop never contains a
newline. -/
theorem newline_not_mem_lastPart (s : PyStr) :
    '\n' ∉ lastPart (pySplit '\n' s) :=
  not_mem_of_mem_pySplit '\n' s _
    (lastPart_mem (pySplit '\n' s) (pySplit_ne_nil '\n' s))

/-- A buffer without a newline passes through the loop unchanged. -/
theorem extractLines_no_newline (buf : PyStr) (h : '\n' ∉ buf) :
    extractLines buf = ([], buf) := by
  rw [extractLines_eq, pySplit_eq_single '\n' buf h]
  simp [initParts, lastPart]

/-- Decoder composition: processing `a ++ b` in one go is processing `a`,
then processing its leftover buffer together with `b`. -/
theorem extractLines_append (a b : PyStr) :
    extractLines (a ++ b) =
      ((extractLines a).1 ++ (extractLines ((extractLines a).2 ++ b)).1,
        (extractLines ((extractLines a).2 ++ b)).2) := by
  have hA := extractLines_eq a
  have hAB := extractLines_eq (a ++ b)
  cases hb : pySplit '\n' b with
  | nil => exact absurd hb (pySplit_ne_nil '\n' b)
  | cons g gs =>
    have hlast : '\n' ∉ lastPart (pySplit '\n' a) := newline_not_mem_lastPart a
    have hres : pySplit '\n' (lastPart (pySplit '\n' a) ++ b)
        = (lastPart (pySplit '\n' a) ++ g) :: gs := by
      rw [pySplit_append, pySplit_eq_single '\n' _ hlast, hb]
      simp [initParts, lastPart]
    have hRem := extractLines_eq (lastPart (pySplit '\n' a) ++ b)
    rw [hres] at hRem
    rw [hAB, pySplit_append, hb, hA]
    simp only [List.headD_cons, List.tail_cons]
    rw [hRem]
    simp [initParts_append_cons, lastPart_append_cons]

/-- Folding the receive loop from any starting accumulator, provided the
carried buffer holds no newline (the loop invariant). -/
theorem decodeChunks_foldl (chunks : List PyStr) (ls : List PyStr) (r : PyStr)
    (hr : '\n' ∉ r) :
    chunks.foldl
        (fun acc chunk =>
          (acc.1 ++ (decodeStep acc.2 chunk).1, (decodeStep acc.2 chunk).2))
        (ls, r) =
      (ls ++ (extractLines (r ++ chunks.flatten)).1,
        (extractLines (r ++ chunks.flatten)).2) := by
  induction chunks generalizing ls r with
  | nil =>
    simp [extractLines_no_newline r hr]
  | cons c cs ih =>
    have hstep : '\n' ∉ (decodeStep r c).2 := by
      unfold decodeStep
      rw [extractLines_eq]
      exact newline_not_mem_lastPart (r ++ c)
    refine (ih (ls ++ (decodeStep r c).1) ((decodeStep r c).2) hstep).trans ?_
    unfold decodeStep
    rw [List.flatten_cons, ← List.append_assoc, extractLines_append (r ++ c) cs.flatten]
    simp

/-- C1: Frame decoding is chunk-boundary independent — feeding any list of
chunks one at a time through the buffer-append-and-split loop (starting from
an empty buffer) produces exactly the ordered line sequence (and final
buffer) obtained by feeding the concatenation as one chunk. -/
theorem C1_chunk_boundary_independence (chunks : List PyStr) :
    decodeChunks chunks = extractLines chunks.flatten := by
  unfold decodeChunks
  rw [decodeChunks_foldl chunks [] [] (by simp)]
  simp

/-- C10: after each frame-decoding step (append a chunk, extract every
complete line) the retained remainder buffer contains no newline. -/
theorem C10_remainder_no_newline (buffer chunk : PyStr) :
    '\n' ∉ (decodeStep buffer chunk).2 := by
  unfold decodeStep
  rw [extractLines_eq]
  exact newline_not_mem_lastPart (buffer ++ chunk)

/-- The head of a `dropWhile` result never satisfies the predicate. -/
theorem head?_dropWhile_not (p : Char → Bool) (l : PyStr) (a : Char)
    (h : (l.dropWhile p).head? = some a) : p a = false := by
  induction l with
  | nil => simp at h
  | cons c cs ih =>
    by_cases hc : p c
    · rw [List.dropWhile_cons_of_pos hc] at h
      exact ih h
    · rw [List.dropWhile_cons_of_neg hc] at h
      simp only [List.head?_cons, Option.some.injEq] at h
      subst h
      exact Bool.of_not_eq_true hc

/-- `rstrip('\r')` leaves no trailing carriage return. -/
theorem rstripCR_getLast? (s : PyStr) : (rstripCR s).getLast? ≠ some '\r' := by
  unfold rstripCR
  rw [List.getLast?_reverse]
  intro h
  have := head?_dropWhile_not (fun c => c == '\r') s.reverse '\r' h
  simp at this

/-- C7 (amended): each extracted line is the corresponding newline-separated
segment with ALL trailing `'\r'` characters removed, so no extracted line
ends in `'\r'`. -/
theorem C7_rstrip_all_cr (buffer chunk : PyStr) :
    (decodeStep buffer chunk).1 =
      (initParts (pySplit '\n' (buffer ++ chunk))).map rstripCR ∧
    ∀ l ∈ (decodeStep buffer chunk).1, l.getLast? ≠ some '\r' := by
  constructor
  · unfold decodeStep
    rw [extractLines_eq]
  · intro l hl
    unfold decodeStep at hl
    rw [extractLines_eq] at hl
    obtain ⟨l', _, rfl⟩ := List.mem_map.mp hl
    exact rstripCR_getLast? l'

/-- C7 witness: on the concrete chunk `"a\r\r\nx"` the extracted line
`"a"` is a member of the output and has no trailing `'\r'`. -/
theorem C7_witness :
    "a".data ∈ (decodeStep [] "a\r\r\nx".data).1 ∧
      ("a".data : PyStr).getLast? ≠ some '\r' :=
  ⟨by decide, (C7_rstrip_all_cr [] "a\r\r\nx".data).2 "a".data (by decide)⟩

/-- C7 counterexample: the claim says exactly one trailing `'\r'` is
stripped, so a segment `"a\r\r\n"` would yield the line `"a\r"`; the code
strips both, yielding `"a"`. -/
theorem C7_counterexample :
    (decodeStep [] "a\r\r\n".data).1 = ["a".data] ∧
      ("a".data : PyStr) ≠ "a\r".data := by
  constructor
  · decide
  · decide

/-- C8 (amended): in `ADSBClient.run` a receive timeout leaves the loop
connected with its state unchanged (`continue`), and non-empty data keeps
it connected, while an empty read or a connection error disconnects; in
`PersistentADSBClient.run_persistent` a receive timeout instead BREAKS the
inner loop — it is treated as connection loss, like an empty read or a
connection error. -/
theorem C8_timeout_handling :
    (∀ st : RunState, adsbRunBody st RecvEvent.timeout =
      (st, ConnState.connected)) ∧
    (∀ (st : RunState) (c : Char) (rest : PyStr),
      (adsbRunBody st (RecvEvent.recv (c :: rest))).2 = ConnState.connected) ∧
    (∀ st : RunState, adsbRunBody st (RecvEvent.recv []) =
      (st, ConnState.disconnected)) ∧
    (∀ st : RunState, adsbRunBody st RecvEvent.connError =
      (st, ConnState.disconnected)) ∧
    (∀ st : PersistentState, persistentRunBody st RecvEvent.timeout =
      (st, ConnState.disconnected)) ∧
    (∀ st : PersistentState, persistentRunBody st (RecvEvent.recv []) =
      (st, ConnState.disconnected)) ∧
    (∀ st : PersistentState, persistentRunBody st RecvEvent.connError =
      (st, ConnState.disconnected)) := by
  refine ⟨fun st => rfl, fun st c rest => ?_, fun st => ?_, fun st => rfl,
    fun st => rfl, fun st => ?_, fun st => rfl⟩
  · simp [adsbRunBody]
  · simp [adsbRunBody]
  · simp [persistentRunBody]

/-- C8 counterexample: in the persistent client a receive timeout does NOT
leave the connection manager connected — the inner loop breaks and the
client reconnects. -/
theorem C8_counterexample :
    (persistentRunBody ⟨[], []⟩ RecvEvent.timeout).2 ≠ ConnState.connected := by
  decide

/-! ## The record parser -/

/-- Inverting a successful parse: the guards held and the record is the one
built from the comma-split of the stripped line. -/
theorem parse_some_elim (line : PyStr) (r : ADSBMessage)
    (hp : parse_sbs_message line = some r) :
    pyStrip line ≠ [] ∧
      22 ≤ (pySplit ',' (pyStrip line)).length ∧
      (pySplit ',' (pyStrip line)).getD 0 [] = "MSG".data ∧
      r = mkMessage (pySplit ',' (pyStrip line)) := by
  unfold parse_sbs_message at hp
  split_ifs at hp with h1 h2
  push_neg at h2
  exact ⟨h1, by omega, h2.2, (Option.some.inj hp).symm⟩

/-- A line whose strip is empty, or whose stripped comma-split fails the
guards, parses to `none`; conversely the guards force a successful parse. -/
theorem parse_eq_some_of_guards (line : PyStr)
    (hlen : 22 ≤ (pySplit ',' (pyStrip line)).length)
    (hmsg : (pySplit ',' (pyStrip line)).getD 0 [] = "MSG".data) :
    parse_sbs_message line = some (mkMessage (pySplit ',' (pyStrip line))) := by
  have hne : pyStrip line ≠ [] := by
    intro h
    rw [h] at hlen
    simp [pySplit] at hlen
  unfold parse_sbs_message
  rw [if_neg hne, if_neg (by push_neg; exact ⟨by omega, hmsg⟩)]

/-- A stripped line whose split has at least two parts, the first being
`"MSG"`, begins with the four characters `MSG,`. -/
theorem strip_take_msg (line : PyStr)
    (hlen : 2 ≤ (pySplit ',' (pyStrip line)).length)
    (hmsg : (pySplit ',' (pyStrip line)).getD 0 [] = "MSG".data) :
    (pyStrip line).take 4 = "MSG,".data := by
  have hj := joinSep_pySplit ',' (pyStrip line)
  cases h : pySplit ',' (pyStrip line) with
  | nil => exact absurd h (pySplit_ne_nil ',' (pyStrip line))
  | cons f fs =>
    cases fs with
    | nil => rw [h] at hlen; simp at hlen
    | cons g gs =>
      rw [h] at hj hmsg
      simp only [List.getD_cons_zero] at hmsg
      subst hmsg
      rw [joinSep] at hj
      rw [← hj]
      rfl

/-- C2 (amended): any line whose STRIPPED form does not start with `MSG,`,
or whose comma-split has fewer than 22 fields, is rejected by
`parse_sbs_message` (which, being a total function, also never raises). -/
theorem C2_reject_non_msg (line : PyStr)
    (h : (pyStrip line).take 4 ≠ "MSG,".data
      ∨ (pySplit ',' (pyStrip line)).length < 22) :
    parse_sbs_message line = none := by
  unfold parse_sbs_message
  split_ifs with h1 h2
  · rfl
  · rfl
  · exfalso
    push_neg at h2
    rcases h with h | h
    · exact h (strip_take_msg line (by omega) h2.2)
    · omega

/-- C2 witness: a `SEL` line is rejected. -/
theorem C2_witness : parse_sbs_message "SEL,496,603,12345".data = none :=
  C2_reject_non_msg "SEL,496,603,12345".data (Or.inl (by decide))

/-- C2 counterexample: the claim as stated quantifies over the RAW line; the
line `c2line` starts with a space, hence not with `MSG,`, yet the parser
strips the line before splitting and accepts it. -/
theorem C2_counterexample :
    c2line.take 4 ≠ "MSG,".data ∧ parse_sbs_message c2line ≠ none := by
  constructor
  · decide
  · decide

/-- C3: in every successfully parsed record, an optional field (split
positions 1-21) whose text is empty or whitespace-only is absent, whatever
the field's declared type. -/
theorem C3_empty_field_absent (line : PyStr) (r : ADSBMessage) (i : Nat)
    (hp : parse_sbs_message line = some r) (hi : 1 ≤ i ∧ i ≤ 21)
    (he : pyStrip (fieldAt line i) = []) :
    fieldAbsentAt r i = true := by
  obtain ⟨-, -, -, hr⟩ := parse_some_elim line r hp
  clear hp
  subst hr
  obtain ⟨hi1, hi2⟩ := hi
  unfold fieldAt at he
  simp only [List.getD_eq_getElem?_getD] at he
  interval_cases i <;>
    simp [fieldAbsentAt, mkMessage, safe_int, safe_float, safe_bool,
      strOpt, strOptStripped, List.getD_eq_getElem?_getD, he]

/-- C3 witness: on a 22-field `MSG` line with all optional fields empty,
the altitude field (position 11) is absent. -/
theorem C3_witness :
    parse_sbs_message c3line = some c3msg ∧ fieldAbsentAt c3msg 11 = true :=
  ⟨parse_eq_some_of_guards c3line (by decide) (by decide),
    C3_empty_field_absent c3line c3msg 11
      (parse_eq_some_of_guards c3line (by decide) (by decide))
      (by decide) (by decide)⟩

/-- `pyInt?` fails on a whitespace-only string. -/
theorem pyInt?_none_of_strip_nil (v : PyStr) (h : pyStrip v = []) :
    pyInt? v = none := by
  unfold pyInt?
  rw [h]
  simp [isDigits]

/-- `safe_int` propagates an `int()` failure as `None`. -/
theorem safe_int_of_none (v : PyStr) (h : pyInt? v = none) :
    safe_int v = none := by
  unfold safe_int
  split_ifs <;> simp [h]

/-- `safe_int` propagates an `int()` success. -/
theorem safe_int_of_some (v : PyStr) (n : Int) (h : pyInt? v = some n) :
    safe_int v = some n := by
  unfold safe_int
  split_ifs with hs
  · exact h
  · push_neg at hs
    rw [pyInt?_none_of_strip_nil v hs] at h
    exact absurd h (by simp)

/-- C4: the shape guards alone (22+ fields, first field `MSG`) guarantee a
record is returned, whatever any integer-typed field holds; that field of
the record is absent exactly when `int()` fails on it (e.g. on `"abc"`),
and carries the parsed base-10 value when `int()` succeeds. -/
theorem C4_int_field_robust (line : PyStr) (i : Nat)
    (hlen : 22 ≤ (pySplit ',' (pyStrip line)).length)
    (hmsg : (pySplit ',' (pyStrip line)).getD 0 [] = "MSG".data)
    (hi : i ∈ ([1, 2, 3, 5, 11, 12, 13, 16] : List Nat)) :
    parse_sbs_message line = some (mkMessage (pySplit ',' (pyStrip line))) ∧
    (pyInt? (fieldAt line i) = none →
      intFieldAt (mkMessage (pySplit ',' (pyStrip line))) i = none) ∧
    (∀ n : Int, pyInt? (fieldAt line i) = some n →
      intFieldAt (mkMessage (pySplit ',' (pyStrip line))) i = some n) := by
  refine ⟨parse_eq_some_of_guards line hlen hmsg, ?_, ?_⟩ <;>
    fin_cases hi <;>
    simp only [intFieldAt, mkMessage, fieldAt] <;>
    first
      | (intro h; exact safe_int_of_none _ h)
      | (intro n h; exact safe_int_of_some _ n h)

/-- C4 witness: a 22-field `MSG` line with altitude text `abc` parses to a
record whose altitude is absent. -/
theorem C4_witness :
    parse_sbs_message c4line = some c4msg ∧ c4msg.altitude = none := by
  have h := C4_int_field_robust c4line 11 (by decide) (by decide) (by decide)
  exact ⟨h.1, h.2.1 (by decide)⟩

/-- C5 (amended): string-typed fields are absent when whitespace-only;
otherwise hex_ident, the four date/time fields and squawk hold the RAW
(untrimmed) field text, and only the callsign holds the trimmed text. -/
theorem C5_string_fields (line : PyStr) (r : ADSBMessage)
    (hp : parse_sbs_message line = some r) :
    (pyStrip (fieldAt line 4) = [] → r.hex_ident = none) ∧
    (pyStrip (fieldAt line 4) ≠ [] → r.hex_ident = some (fieldAt line 4)) ∧
    (pyStrip (fieldAt line 6) = [] → r.date_generated = none) ∧
    (pyStrip (fieldAt line 6) ≠ [] →
      r.date_generated = some (fieldAt line 6)) ∧
    (pyStrip (fieldAt line 7) = [] → r.time_generated = none) ∧
    (pyStrip (fieldAt line 7) ≠ [] →
      r.time_generated = some (fieldAt line 7)) ∧
    (pyStrip (fieldAt line 8) = [] → r.date_logged = none) ∧
    (pyStrip (fieldAt line 8) ≠ [] → r.date_logged = some (fieldAt line 8)) ∧
    (pyStrip (fieldAt line 9) = [] → r.time_logged = none) ∧
    (pyStrip (fieldAt line 9) ≠ [] → r.time_logged = some (fieldAt line 9)) ∧
    (pyStrip (fieldAt line 10) = [] → r.callsign = none) ∧
    (pyStrip (fieldAt line 10) ≠ [] →
      r.callsign = some (pyStrip (fieldAt line 10))) ∧
    (pyStrip (fieldAt line 17) = [] → r.squawk = none) ∧
    (pyStrip (fieldAt line 17) ≠ [] → r.squawk = some (fieldAt line 17)) := by
  obtain ⟨-, -, -, hr⟩ := parse_some_elim line r hp
  subst hr
  simp only [mkMessage, fieldAt, strOpt, strOptStripped]
  refine ⟨?_, ?_, ?_, ?_, ?_, ?_, ?_, ?_, ?_, ?_, ?_, ?_, ?_, ?_⟩ <;>
    intro h <;>
    simp only [List.getD_eq_getElem?_getD] at h ⊢ <;> simp [h]

/-- C5 counterexample: the hex_ident field `" A "` is stored untrimmed —
the record field is neither absent nor the trimmed value, refuting the
claim that string fields hold the trimmed text. -/
theorem C5_counterexample :
    parse_sbs_message c5line = some c5msg ∧
    c5msg.hex_ident ≠ none ∧
    c5msg.hex_ident ≠ some (pyStrip (fieldAt c5line 4)) := by
  refine ⟨by decide, by decide, by decide⟩

/-- C5 witness: hex_ident `" B "` is stored raw, callsign `" C "` is stored
trimmed. -/
theorem C5_witness :
    c5wmsg.hex_ident = some " B ".data ∧ c5wmsg.callsign = some "C".data := by
  obtain ⟨h4a, h4b, h6a, h6b, h7a, h7b, h8a, h8b, h9a, h9b, h10a, h10b,
    h17a, h17b⟩ := C5_string_fields c5wline c5wmsg (by decide)
  exact ⟨(h4b (by decide)).trans (by decide),
    (h10b (by decide)).trans (by decide)⟩

/-- `safe_bool` in terms of the stripped field text. -/
theorem safe_bool_spec (v : PyStr) :
    (safe_bool v = some true ↔ pyStrip v = "1".data) ∧
    (safe_bool v = some false ↔ pyStrip v = "0".data) ∧
    (safe_bool v = none ↔
      (pyStrip v ≠ "1".data ∧ pyStrip v ≠ "0".data)) := by
  unfold safe_bool
  split_ifs with h1 h2 <;> simp_all

/-- C6 (amended): each tri-state boolean field is true exactly when its
STRIPPED text is `"1"`, false exactly when its stripped text is `"0"`, and
absent otherwise. -/
theorem C6_bool_fields (line : PyStr) (r : ADSBMessage) (i : Nat)
    (hp : parse_sbs_message line = some r)
    (hi : i ∈ ([18, 19, 20, 21] : List Nat)) :
    (boolFieldAt r i = some true ↔ pyStrip (fieldAt line i) = "1".data) ∧
    (boolFieldAt r i = some false ↔ pyStrip (fieldAt line i) = "0".data) ∧
    (boolFieldAt r i = none ↔
      (pyStrip (fieldAt line i) ≠ "1".data ∧
        pyStrip (fieldAt line i) ≠ "0".data)) := by
  obtain ⟨-, -, -, hr⟩ := parse_some_elim line r hp
  subst hr
  fin_cases hi <;>
    simpa only [boolFieldAt, mkMessage, fieldAt] using
      safe_bool_spec _

/-- C6 counterexample: the alert field text `" 1"` is not the literal
`"1"`, yet the record stores true — refuting "true exactly when the field
text is the literal 1". -/
theorem C6_counterexample :
    parse_sbs_message c6line = some c6msg ∧
    c6msg.alert = some true ∧
    fieldAt c6line 18 ≠ "1".data := by
  refine ⟨by decide, by decide, by decide⟩

/-- C6 witness: alert `"1"` is true, emergency `"0"` is false, spi `"x"`
is absent. -/
theorem C6_witness :
    c6wmsg.alert = some true ∧ c6wmsg.emergency = some false ∧
      c6wmsg.spi = none := by
  obtain ⟨a1, a2, a3⟩ := C6_bool_fields c6wline c6wmsg 18 (by decide) (by decide)
  obtain ⟨b1, b2, b3⟩ := C6_bool_fields c6wline c6wmsg 19 (by decide) (by decide)
  obtain ⟨d1, d2, d3⟩ := C6_bool_fields c6wline c6wmsg 20 (by decide) (by decide)
  exact ⟨a1.mpr (by decide), b2.mpr (by decide), d3.mpr (by decide)⟩

/-- `getD` with a default is stable under `take 22` below the boundary. -/
theorem getD_take_lt (l : List PyStr) (n i : Nat) (hi : i < n) :
    (l.take n).getD i [] = l.getD i [] := by
  induction l generalizing n i with
  | nil => simp
  | cons x xs ih =>
    cases n with
    | zero => omega
    | succ m =>
      cases i with
      | zero => simp
      | succ j =>
        simp only [List.take_succ_cons, List.getD_cons_succ]
        exact ih m j (by omega)

/-- Specialisation of `getD_take_lt` to the parser's 22-field window. -/
theorem getD_take_22 (l : List PyStr) (i : Nat) (hi : i < 22) :
    (l.take 22).getD i [] = l.getD i [] :=
  getD_take_lt l 22 i hi

/-- C9: a line whose stripped comma-split has 22 or more fields with first
field `MSG` always yields a record, and that record is built only from
field positions 0-21 — extra fields are ignored. -/
theorem C9_extra_fields_ignored (line : PyStr)
    (hlen : 22 ≤ (pySplit ',' (pyStrip line)).length)
    (hmsg : (pySplit ',' (pyStrip line)).getD 0 [] = "MSG".data) :
    parse_sbs_message line = some (mkMessage (pySplit ',' (pyStrip line))) ∧
    mkMessage (pySplit ',' (pyStrip line)) =
      mkMessage ((pySplit ',' (pyStrip line)).take 22) := by
  refine ⟨parse_eq_some_of_guards line hlen hmsg, ?_⟩
  unfold mkMessage
  simp only [getD_take_22 _ 0 (by omega), getD_take_22 _ 1 (by omega),
    getD_take_22 _ 2 (by omega), getD_take_22 _ 3 (by omega),
    getD_take_22 _ 4 (by omega), getD_take_22 _ 5 (by omega),
    getD_take_22 _ 6 (by omega), getD_take_22 _ 7 (by omega),
    getD_take_22 _ 8 (by omega), getD_take_22 _ 9 (by omega),
    getD_take_22 _ 10 (by omega), getD_take_22 _ 11 (by omega),
    getD_take_22 _ 12 (by omega), getD_take_22 _ 13 (by omega),
    getD_take_22 _ 14 (by omega), getD_take_22 _ 15 (by omega),
    getD_take_22 _ 16 (by omega), getD_take_22 _ 17 (by omega),
    getD_take_22 _ 18 (by omega), getD_take_22 _ 19 (by omega),
    getD_take_22 _ 20 (by omega), getD_take_22 _ 21 (by omega)]

/-- C9 witness: a line with 25 fields is accepted and parses to the record
built from its first 22 fields. -/
theorem C9_witness :
    parse_sbs_message c9line =
      some (mkMessage ((pySplit ',' (pyStrip c9line)).take 22)) := by
  have h := C9_extra_fields_ignored c9line (by decide) (by decide)
  exact h.2 ▸ h.1

end Adsb
